import Mathlib

/-!
Verification of the Posta mail client backend (src-tauri), focused on the
incremental sync controller, the thread reducer, the batch fetch engine, the
ICS parser, the date bucketing and the card reconciliation.

The Rust sources are shallowly embedded: every definition below mirrors one
function or constant of the repository (named in its doc comment).  Network
calls are abstracted as oracles (explicit function arguments); the host local
timezone is abstracted as a fixed UTC offset in milliseconds; machine integers
are modelled as Int with explicit range checks where Rust would overflow or
reject; a Rust panic is modelled as the value none of an Option result.
-/

namespace Posta

/-! ## Rust string and collection primitives

Every primitive below recurses structurally over character lists, so the
kernel can evaluate concrete instances (the String functions of the core
library are compiled through well-founded recursion and do not reduce). -/

/-- Whether the first list is a prefix of the second. -/
def charsIsPrefix : List Char → List Char → Bool
  | [], _ => true
  | _ :: _, [] => false
  | p :: ps, c :: cs => p = c && charsIsPrefix ps cs

/-- Model of Rust str::starts_with for a literal pattern. -/
def strStartsWith (s pat : String) : Bool :=
  charsIsPrefix pat.data s.data

/-- Model of Rust str::ends_with for a literal pattern. -/
def strEndsWith (s pat : String) : Bool :=
  charsIsPrefix pat.data.reverse s.data.reverse

/-- Fuel-driven splitter on a non-empty pattern: each step consumes at least
one character, so fuel equal to the list length suffices. -/
def charsSplitOnAux (pat : List Char) : Nat → List Char → List Char →
    List (List Char)
  | _, [], acc => [acc.reverse]
  | 0, s, acc => [acc.reverse ++ s]
  | fuel + 1, c :: cs, acc =>
      if charsIsPrefix pat (c :: cs) then
        acc.reverse :: charsSplitOnAux pat fuel ((c :: cs).drop pat.length) []
      else charsSplitOnAux pat fuel cs (c :: acc)

/-- Split on every non-overlapping occurrence of a pattern, left to right;
an empty pattern yields the whole list, as String.splitOn does. -/
def charsSplitOn (s pat : List Char) : List (List Char) :=
  match pat with
  | [] => [s]
  | _ :: _ => charsSplitOnAux pat s.length s []

/-- Whitespace trim of both ends (Rust str::trim; ASCII whitespace agrees). -/
def charsTrim (cs : List Char) : List Char :=
  ((cs.dropWhile Char.isWhitespace).reverse.dropWhile Char.isWhitespace).reverse

/-- String wrapper of charsTrim. -/
def strTrim (s : String) : String :=
  String.mk (charsTrim s.data)

/-- ASCII lowercase fold of a string (Char.toLower folds exactly A-Z). -/
def strToLower (s : String) : String :=
  String.mk (s.data.map Char.toLower)

/-- Everything after the first colon, as in line[colon_pos + 1..] guarded by
line.find(the colon); none when the line has no colon. -/
def charsAfterColon : List Char → Option (List Char)
  | [] => none
  | c :: cs => if c = ':' then some cs else charsAfterColon cs

/-- Model of Rust str::contains for a literal pattern: the pattern occurs in
the string iff splitting on it yields more than one piece. -/
def rustContains (s pat : String) : Bool :=
  (charsSplitOn s.data pat.data).length != 1

/-- UTF-8 byte length of a character list (Rust str::len counts bytes). -/
def utf8Len (cs : List Char) : Nat :=
  cs.foldl (fun n c => n + c.utf8Size) 0

/-- Drop exactly n UTF-8 bytes: the remaining characters when the byte count
lands on a character boundary within the list, none otherwise. -/
def dropBytes : Nat → List Char → Option (List Char)
  | 0, cs => some cs
  | _ + 1, [] => none
  | n + 1, c :: cs =>
      if c.utf8Size ≤ n + 1 then dropBytes (n + 1 - c.utf8Size) cs else none

/-- Take exactly n UTF-8 bytes: the prefix when the byte count lands on a
character boundary within the list, none otherwise. -/
def takeBytes : Nat → List Char → Option (List Char)
  | 0, _ => some []
  | _ + 1, [] => none
  | n + 1, c :: cs =>
      if c.utf8Size ≤ n + 1 then
        (takeBytes (n + 1 - c.utf8Size) cs).map (fun l => c :: l)
      else none

/-- Model of a Rust byte-range slice s[a..b]: none models the panic, raised
when b < a, when an index exceeds the byte length, or when an index falls
inside a multi-byte character. -/
def byteSlice (cs : List Char) (a b : Nat) : Option (List Char) :=
  if b < a then none
  else (dropBytes a cs).bind (fun rest => takeBytes (b - a) rest)

/-- Model of Rust str::find for a literal pattern: the byte index of the
first occurrence, or none. -/
def findSubstrIdx (s pat : String) : Option Nat :=
  match charsSplitOn s.data pat.data with
  | [] => none
  | [_] => none
  | pre :: _ => some (utf8Len pre)

/-- Model of Rust str::lines: split on a newline, strip one trailing carriage
return per line, and drop the final empty piece produced by a trailing
newline. -/
def rustLines (s : String) : List String :=
  let parts := charsSplitOn s.data ['\n']
  let parts := if parts.getLast? = some [] then parts.dropLast else parts
  (parts.map (fun l => if l.getLast? = some '\r' then l.dropLast else l)).map
    String.mk

/-- Everything after the first colon of a line. -/
def afterFirstColon (line : String) : Option String :=
  (charsAfterColon line.data).map String.mk

/-- Model of Rust str::parse for unsigned integers restricted to digit
strings: an optional leading plus sign, then at least one ASCII digit. -/
def parseDigits : List Char → Option Nat
  | [] => none
  | cs => cs.foldl (fun acc c =>
      match acc with
      | none => none
      | some n => if c.isDigit then some (n * 10 + (c.toNat - 48)) else none)
      (some 0)

/-- Rust str::parse::<u32>: optional plus sign, digits, bounded by 2^32 - 1. -/
def rustParseU32 (s : String) : Option Nat :=
  let cs := if strStartsWith s "+" then s.data.drop 1 else s.data
  match parseDigits cs with
  | some n => if n ≤ 4294967295 then some n else none
  | none => none

/-- Rust str::parse::<i32>: optional sign, digits, bounded to the i32 range. -/
def rustParseI32 (s : String) : Option Int :=
  let (neg, cs) :=
    if strStartsWith s "-" then (true, s.data.drop 1)
    else if strStartsWith s "+" then (false, s.data.drop 1)
    else (false, s.data)
  match parseDigits cs with
  | some n =>
      let v : Int := if neg then -(n : Int) else (n : Int)
      if -2147483648 ≤ v ∧ v ≤ 2147483647 then some v else none
  | none => none

/-- Rust str::parse::<i64>: optional sign, digits, bounded to the i64 range. -/
def rustParseI64 (s : String) : Option Int :=
  let (neg, cs) :=
    if s.startsWith "-" then (true, s.data.drop 1)
    else if s.startsWith "+" then (false, s.data.drop 1)
    else (false, s.data)
  match parseDigits cs with
  | some n =>
      let v : Int := if neg then -(n : Int) else (n : Int)
      if -9223372036854775808 ≤ v ∧ v ≤ 9223372036854775807 then some v else none
  | none => none

/-- Model of Vec::dedup: remove consecutive duplicate elements only. -/
def dedupAdjacent : List String → List String
  | [] => []
  | [a] => [a]
  | a :: b :: rest =>
      if a = b then dedupAdjacent (b :: rest) else a :: dedupAdjacent (b :: rest)

/-- Model of HashSet::insert followed by iteration: a set kept as a list in
insertion order.  HashSet iteration order is arbitrary in Rust; this model
fixes insertion order, and every theorem about these values is stated at the
level of membership or whole-set content. -/
def insertSet (s : List String) (x : String) : List String :=
  if x ∈ s then s else s ++ [x]

/-- Structural worker of chunksOf: the fuel argument dominates the length of
the remaining list, so the recursion is structural and kernel-reducible. -/
def chunksOfAux : Nat → Nat → List String → List (List String)
  | _, _, [] => []
  | _, 0, _ => []
  | 0, _ + 1, _ :: _ => []
  | fuel + 1, n + 1, x :: xs =>
      ((x :: xs).take (n + 1)) :: chunksOfAux fuel (n + 1) ((x :: xs).drop (n + 1))

/-- Model of slice::chunks n: consecutive chunks of length n, the last chunk
possibly shorter.  The zero case is unreachable in the embedded code (the
batch size constant is 50). -/
def chunksOf (n : Nat) (l : List String) : List (List String) :=
  chunksOfAux l.length n l

/-- Model of str::trim_matches for the angle-bracket characters used on a
Content-ID header: repeatedly strip matching characters from both ends. -/
def trimAngle (s : String) : String :=
  String.mk (((s.data.dropWhile (fun c => c = '<' ∨ c = '>')).reverse.dropWhile
    (fun c => c = '<' ∨ c = '>')).reverse)

/-- Rust str::eq_ignore_ascii_case.  Lean Char.toLower folds exactly the ASCII
uppercase letters, matching the Rust ASCII fold. -/
def eqIgnoreAsciiCase (a b : String) : Bool :=
  strToLower a == strToLower b

/-- Rust str::trim_end_matches for one character: strip every trailing copy. -/
def trimEndMatchesChar (s : String) (c : Char) : String :=
  String.mk ((s.data.reverse.dropWhile (fun x => x = c)).reverse)

/-! ## Calendar arithmetic (model of the chrono crate)

Dates are day numbers counted from 1970-01-01; timestamps are UTC
milliseconds.  The conversions below are the standard civil-calendar
algorithms chrono implements. -/

/-- Proleptic Gregorian leap year test. -/
def isLeapYear (y : Int) : Bool :=
  (y % 4 == 0 && y % 100 != 0) || y % 400 == 0

/-- Number of days of month m (1-12) of year y. -/
def daysInMonth (y : Int) (m : Nat) : Nat :=
  if m = 2 then (if isLeapYear y then 29 else 28)
  else if m = 4 ∨ m = 6 ∨ m = 9 ∨ m = 11 then 30
  else 31

/-- Day number of a civil date, counted from 1970-01-01 (the days-from-civil
algorithm used by calendar libraries; Int division here truncates toward
zero exactly as the reference algorithm requires). -/
def daysFromCivil (y : Int) (m d : Nat) : Int :=
  let y : Int := if m ≤ 2 then y - 1 else y
  let era : Int := (if 0 ≤ y then y else y - 399) / 400
  let yoe : Int := y - era * 400
  let mp : Int := if 2 < m then (m : Int) - 3 else (m : Int) + 9
  let doy : Int := (153 * mp + 2) / 5 + (d : Int) - 1
  let doe : Int := yoe * 365 + yoe / 4 - yoe / 100 + doy
  era * 146097 + doe - 719468

/-- Validity test of chrono NaiveDate::from_ymd_opt.  Four-digit parsed years
always lie inside the chrono year range, so only month and day are checked. -/
def validYmd (y : Int) (m d : Nat) : Bool :=
  1 ≤ m && m ≤ 12 && 1 ≤ d && d ≤ daysInMonth y m

/-- Smallest UTC millisecond timestamp representable by chrono (year -262144). -/
def chronoMinMs : Int := daysFromCivil (-262144) 1 1 * 86400000

/-- Largest UTC millisecond timestamp representable by chrono (year 262143). -/
def chronoMaxMs : Int := (daysFromCivil 262143 12 31 * 86400 + 86399) * 1000 + 999

/-- Model of chrono DateTime::from_timestamp_millis: defined exactly on the
chrono range. -/
def fromTimestampMillis (ms : Int) : Option Int :=
  if chronoMinMs ≤ ms ∧ ms ≤ chronoMaxMs then some ms else none

/-! ## The embedded data model (src-tauri/src/models.rs and gmail/mod.rs) -/

/-- Constant MAX_BATCH_SIZE of gmail/mod.rs. -/
def MAX_BATCH_SIZE : Nat := 50

/-- Constant MAX_INLINE_IMAGE_SIZE of gmail/mod.rs (i32 in the source). -/
def MAX_INLINE_IMAGE_SIZE : Int := 100000

/-- Struct CalendarEvent of models.rs. -/
structure CalendarEvent where
  uid : Option String
  title : String
  start_time : Int
  end_time : Option Int
  all_day : Bool
  location : Option String
  description : Option String
  organizer : Option String
  attendees : List String
  method : Option String
  status : Option String
  response_status : Option String
deriving DecidableEq

/-- Struct Attachment of models.rs.  The size field is an i32 in the source;
values stay far below the i32 bound in every embedded computation. -/
structure Attachment where
  message_id : String
  attachment_id : String
  filename : String
  mime_type : String
  size : Int
  inline_data : Option String
  content_id : Option String
deriving DecidableEq

/-- Method Attachment::is_image of models.rs. -/
def Attachment.is_image (a : Attachment) : Bool :=
  strStartsWith a.mime_type "image/"

/-- Method Attachment::is_calendar of models.rs. -/
def Attachment.is_calendar (a : Attachment) : Bool :=
  a.mime_type == "text/calendar" || a.mime_type == "application/ics"
    || strEndsWith a.filename ".ics"

/-- Struct Thread of models.rs; last_message_date is kept as UTC
milliseconds. -/
structure Thread where
  gmail_thread_id : String
  account_id : String
  subject : String
  snippet : String
  last_message_date : Int
  unread_count : Int
  labels : List String
  participants : List String
  has_attachment : Bool
  attachments : List Attachment
  calendar_event : Option CalendarEvent
deriving DecidableEq

/-- Struct ThreadGroup of models.rs. -/
structure ThreadGroup where
  label : String
  threads : List Thread
deriving DecidableEq

/-- Enum DateBucket of models.rs. -/
inductive DateBucket where
  | Today
  | Yesterday
  | ThisWeek
  | Last30Days
  | Older
deriving DecidableEq

/-- Method DateBucket::as_str of models.rs. -/
def DateBucket.as_str : DateBucket → String
  | .Today => "Today"
  | .Yesterday => "Yesterday"
  | .ThisWeek => "This week"
  | .Last30Days => "Last 30 days"
  | .Older => "Older"

/-! ## extract_email_address (gmail/mod.rs, lines 1345-1354)

The function slices from[start + 1..end] where start is the byte index of the
first less-than sign and end the byte index of the first greater-than sign.
When end < start + 1 the Rust slice panics; the panic is modelled as none. -/

/-- Function extract_email_address of gmail/mod.rs.  Returns none exactly when
the Rust original panics (first greater-than sign before the first less-than
sign). -/
def extract_email_address (from_ : String) : Option String :=
  match from_.data.findIdx? (fun c => c = '<'), from_.data.findIdx? (fun c => c = '>') with
  | some start, some stop =>
      if start + 1 ≤ stop then
        some (strTrim (String.mk ((from_.data.drop (start + 1)).take (stop - (start + 1)))))
      else
        none
  | _, _ => some (strTrim from_)

/-! ## ICS parsing (gmail/mod.rs, lines 1356-1495) -/

/-- One numeric component of parse_ics_datetime: byte-slice then parse, as in
s[a..b].parse().ok().  The outer none models the slice panic (an index inside
a multi-byte character); the inner none is a clean parse failure. -/
def icsSliceNum (cs : List Char) (a b : Nat) (parser : String → Option Int) :
    Option (Option Int) :=
  match byteSlice cs a b with
  | none => none
  | some piece => some (parser (String.mk piece))

/-- Function parse_ics_datetime of gmail/mod.rs.  The outer none models a
Rust panic (a fixed byte-offset slice such as s[4..6] or s[9..11] falling
inside a multi-byte character); the inner option is the Rust return value.
Length tests count bytes, as Rust str::len does.  The parameter off is the
fixed UTC offset (milliseconds) modelling the host local timezone used for
values without a trailing Z; chrono single() always succeeds for a fixed
offset, so the DST-gap failure path is not modelled. -/
def parse_ics_datetime (off : Int) (s : String) : Option (Option (Int × Bool)) :=
  let cs := charsTrim s.data
  if utf8Len cs = 8 ∧ ¬ cs.contains 'T' then
    match icsSliceNum cs 0 4 rustParseI32 with
    | none => none
    | some none => some none
    | some (some year) =>
        match icsSliceNum cs 4 6 (fun p => (rustParseU32 p).map (fun n => (n : Int))) with
        | none => none
        | some none => some none
        | some (some month) =>
            match icsSliceNum cs 6 8 (fun p => (rustParseU32 p).map (fun n => (n : Int))) with
            | none => none
            | some none => some none
            | some (some day) =>
                if validYmd year month.toNat day.toNat then
                  some (some (daysFromCivil year month.toNat day.toNat * 86400000, true))
                else some none
  else if cs.contains 'T' then
    let is_utc := cs.getLast? = some 'Z'
    let cs := (cs.reverse.dropWhile (fun x => x = 'Z')).reverse
    if 15 ≤ utf8Len cs then
      match icsSliceNum cs 0 4 rustParseI32 with
      | none => none
      | some none => some none
      | some (some year) =>
          match icsSliceNum cs 4 6 (fun p => (rustParseU32 p).map (fun n => (n : Int))) with
          | none => none
          | some none => some none
          | some (some month) =>
              match icsSliceNum cs 6 8 (fun p => (rustParseU32 p).map (fun n => (n : Int))) with
              | none => none
              | some none => some none
              | some (some day) =>
                  match icsSliceNum cs 9 11 (fun p => (rustParseU32 p).map (fun n => (n : Int))) with
                  | none => none
                  | some none => some none
                  | some (some hour) =>
                      match icsSliceNum cs 11 13 (fun p => (rustParseU32 p).map (fun n => (n : Int))) with
                      | none => none
                      | some none => some none
                      | some (some min) =>
                          match icsSliceNum cs 13 15 (fun p => (rustParseU32 p).map (fun n => (n : Int))) with
                          | none => none
                          | some none => some none
                          | some (some sec) =>
                              if validYmd year month.toNat day.toNat
                                  ∧ hour < 24 ∧ min < 60 ∧ sec < 60 then
                                let naive := (daysFromCivil year month.toNat day.toNat * 86400
                                  + hour * 3600 + min * 60 + sec) * 1000
                                some (some (if is_utc then naive else naive - off, false))
                              else some none
    else some none
  else some none

/-- Property scan shared by get_property and get_event_property of
parse_ics_content: first trimmed line starting with the property name and
containing a colon; value is everything after the first colon. -/
def get_ics_property : List String → String → Option String
  | [], _ => none
  | l :: rest, name =>
      let t := charsTrim l.data
      if charsIsPrefix name.data t then
        match (charsAfterColon t).map String.mk with
        | some v => some v
        | none => get_ics_property rest name
      else get_ics_property rest name

/-- Strip of a leading mailto: scheme (str::strip_prefix in the source). -/
def stripMailto (s : String) : String :=
  if strStartsWith s "mailto:" then String.mk (s.data.drop 7) else s

/-- The VEVENT span sliced out by parse_ics_content: the byte slice from the
index of BEGIN:VEVENT to the index of END:VEVENT.  The outer none models the
Rust slice panic, raised when END:VEVENT precedes BEGIN:VEVENT; the inner
none is the clean question-mark exit when either marker index is absent. -/
def ics_event_block (ics : String) : Option (Option String) :=
  match findSubstrIdx ics "BEGIN:VEVENT", findSubstrIdx ics "END:VEVENT" with
  | some estart, some eend =>
      match byteSlice ics.data estart eend with
      | none => none
      | some blk => some (some (String.mk blk))
  | _, _ => some none

/-- ATTENDEE extraction of parse_ics_content: lines whose trimmed form starts
with ATTENDEE; the value is taken after the first colon of the raw line. -/
def ics_attendees (event_block : String) : List String :=
  (rustLines event_block).filterMap (fun line =>
    if charsIsPrefix "ATTENDEE".data (charsTrim line.data) then
      (afterFirstColon line).map stripMailto
    else none)

/-- The DTEND computation of parse_ics_content: and_then into the datetime
parser, whose panic propagates, then map to the timestamp. -/
def ics_end_time (off : Int) (dtend : Option String) : Option (Option Int) :=
  match dtend with
  | none => some none
  | some s =>
      match parse_ics_datetime off s with
      | none => none
      | some r => some (r.map (fun p => p.1))

/-- Function parse_ics_content of gmail/mod.rs.  The outer none models a Rust
panic inside the VEVENT slice or a datetime parse; the inner option is the
Rust return value. -/
def parse_ics_content (off : Int) (ics_data : String) :
    Option (Option CalendarEvent) :=
  if rustContains ics_data "BEGIN:VCALENDAR" && rustContains ics_data "BEGIN:VEVENT" then
    let method := get_ics_property (rustLines ics_data) "METHOD"
    match ics_event_block ics_data with
    | none => none
    | some none => some none
    | some (some event_block) =>
        let lines := rustLines event_block
        let title := (get_ics_property lines "SUMMARY").getD "(No title)"
        let uid := get_ics_property lines "UID"
        let location := get_ics_property lines "LOCATION"
        let description := get_ics_property lines "DESCRIPTION"
        let status := get_ics_property lines "STATUS"
        match get_ics_property lines "DTSTART" with
        | none => some none
        | some dtstart =>
            match parse_ics_datetime off dtstart with
            | none => none
            | some none => some none
            | some (some (start_time, all_day)) =>
                match ics_end_time off (get_ics_property lines "DTEND") with
                | none => none
                | some end_time =>
                    let organizer := (get_ics_property lines "ORGANIZER").map stripMailto
                    let attendees := ics_attendees event_block
                    some (some {
                      uid := uid
                      title := title
                      start_time := start_time
                      end_time := end_time
                      all_day := all_day
                      location := location
                      description := description
                      organizer := organizer
                      attendees := attendees
                      method := method
                      status := status
                      response_status := none
                    })
  else some none

/-! ## Wire format of a thread detail (gmail/mod.rs, lines 38-96) -/

/-- Struct Header of gmail/mod.rs. -/
structure Header where
  name : String
  value : String

/-- Struct MessageBody of gmail/mod.rs. -/
structure MessageBody where
  size : Option Int
  data : Option String
  attachment_id : Option String

/-- Struct MessagePart of gmail/mod.rs (recursive through parts). -/
inductive MessagePart where
  | mk (part_id : Option String) (mime_type : String) (filename : Option String)
       (headers : Option (List Header)) (body : Option MessageBody)
       (parts : Option (List MessagePart))

/-- Field mime_type of MessagePart. -/
def MessagePart.mime_type : MessagePart → String
  | .mk _ m _ _ _ _ => m

/-- Field filename of MessagePart. -/
def MessagePart.filename : MessagePart → Option String
  | .mk _ _ f _ _ _ => f

/-- Field headers of MessagePart. -/
def MessagePart.headers : MessagePart → Option (List Header)
  | .mk _ _ _ h _ _ => h

/-- Field body of MessagePart. -/
def MessagePart.body : MessagePart → Option MessageBody
  | .mk _ _ _ _ b _ => b

/-- Struct MessagePayload of gmail/mod.rs. -/
structure MessagePayload where
  headers : Option (List Header)
  body : Option MessageBody
  parts : Option (List MessagePart)
  mime_type : Option String

/-- Struct MessageDetail of gmail/mod.rs. -/
structure MessageDetail where
  id : String
  label_ids : Option (List String)
  snippet : Option String
  internal_date : Option String
  payload : Option MessagePayload

/-- Struct ThreadDetail of gmail/mod.rs. -/
structure ThreadDetail where
  id : String
  messages : Option (List MessageDetail)

/-- Struct AttachmentInfo of gmail/mod.rs. -/
structure AttachmentInfo where
  attachment_id : String
  filename : String
  mime_type : String
  size : Int
  content_id : Option String

/-! ## Attachment extraction (gmail/mod.rs, lines 1506-1547) -/

/-- Filename synthesis of extract_attachments_from_parts: the declared
filename when non-empty, else content-id dot subtype, else attachment dot
subtype, where subtype is the last piece of the MIME type split on a slash. -/
def synthFilename (filename : Option String) (content_id : Option String)
    (mime_type : String) : String :=
  match filename.filter (fun f => !f.data.isEmpty) with
  | some f => f
  | none =>
      let ext := (((charsSplitOn mime_type.data ['/']).getLast?).map String.mk).getD "bin"
      match content_id with
      | some cid => cid ++ "." ++ ext
      | none => "attachment." ++ ext

/-- Per-part step of extract_attachments_from_parts: the Content-ID header is
read (angle brackets trimmed), and an AttachmentInfo is produced only when the
part body carries an attachment id and a positive size. -/
def partOwnInfo (p : MessagePart) : List AttachmentInfo :=
  let content_id := p.headers.bind (fun headers =>
    (headers.find? (fun h => eqIgnoreAsciiCase h.name "Content-ID")).map
      (fun h => trimAngle h.value))
  match p.body with
  | none => []
  | some body =>
      match body.attachment_id with
      | none => []
      | some attachment_id =>
          let size := body.size.getD 0
          if 0 < size then
            [{ attachment_id := attachment_id
               filename := synthFilename p.filename content_id p.mime_type
               mime_type := p.mime_type
               size := size
               content_id := content_id }]
          else []

mutual

/-- Function extract_attachments_from_parts of gmail/mod.rs. -/
def extract_attachments_from_parts : Option (List MessagePart) → List AttachmentInfo
  | none => []
  | some ps => extractPartsList ps

/-- Loop body of extract_attachments_from_parts over a part vector: own info
of each part followed by the recursive walk of its nested parts. -/
def extractPartsList : List MessagePart → List AttachmentInfo
  | [] => []
  | p :: rest => extractOnePart p ++ extractPartsList rest

/-- One iteration of the extract_attachments_from_parts loop. -/
def extractOnePart : MessagePart → List AttachmentInfo
  | .mk part_id mime_type filename headers body parts =>
      partOwnInfo (.mk part_id mime_type filename headers body parts)
        ++ extract_attachments_from_parts parts

end

/-! ## Base64 decode (base64 crate, STANDARD engine, strict padding) -/

/-- Value of one standard-alphabet base64 character. -/
def b64CharVal (c : Char) : Option Nat :=
  if 'A' ≤ c ∧ c ≤ 'Z' then some (c.toNat - 65)
  else if 'a' ≤ c ∧ c ≤ 'z' then some (c.toNat - 71)
  else if '0' ≤ c ∧ c ≤ '9' then some (c.toNat + 4)
  else if c = '+' then some 62
  else if c = '/' then some 63
  else none

/-- Standard base64 decode in four-character groups with canonical padding
and zero trailing bits, as the STANDARD engine of the base64 crate checks. -/
def b64DecodeGroups : List Char → Option (List Nat)
  | [] => some []
  | c1 :: c2 :: c3 :: c4 :: rest =>
      match b64CharVal c1, b64CharVal c2 with
      | some v1, some v2 =>
          if c3 = '=' ∧ c4 = '=' ∧ rest = [] then
            if v2 % 16 = 0 then some [v1 * 4 + v2 / 16] else none
          else
            match b64CharVal c3 with
            | some v3 =>
                if c4 = '=' ∧ rest = [] then
                  if v3 % 4 = 0 then
                    some [v1 * 4 + v2 / 16, (v2 % 16) * 16 + v3 / 4]
                  else none
                else
                  match b64CharVal c4 with
                  | some v4 =>
                      (b64DecodeGroups rest).map (fun bs =>
                        (v1 * 4 + v2 / 16) :: ((v2 % 16) * 16 + v3 / 4)
                          :: ((v3 % 4) * 64 + v4) :: bs)
                  | none => none
            | none => none
      | _, _ => none
  | _ => none

/-- Whether a byte is a UTF-8 continuation byte. -/
def isUtf8Cont (b : Nat) : Bool :=
  128 ≤ b && b < 192

/-- Strict UTF-8 decode of a byte list, as String::from_utf8 validates:
continuation bytes checked, overlong encodings, surrogates and code points
beyond 0x10FFFF rejected. -/
def utf8Decode : List Nat → Option (List Char)
  | [] => some []
  | b :: rest =>
      if b < 128 then
        (utf8Decode rest).map (fun cs => Char.ofNat b :: cs)
      else if 192 ≤ b ∧ b < 224 then
        match rest with
        | b2 :: rest2 =>
            if isUtf8Cont b2 then
              let cp := (b - 192) * 64 + (b2 - 128)
              if 128 ≤ cp then
                (utf8Decode rest2).map (fun cs => Char.ofNat cp :: cs)
              else none
            else none
        | [] => none
      else if 224 ≤ b ∧ b < 240 then
        match rest with
        | b2 :: b3 :: rest3 =>
            if isUtf8Cont b2 && isUtf8Cont b3 then
              let cp := (b - 224) * 4096 + (b2 - 128) * 64 + (b3 - 128)
              if 2048 ≤ cp ∧ (cp < 55296 ∨ 57344 ≤ cp) then
                (utf8Decode rest3).map (fun cs => Char.ofNat cp :: cs)
              else none
            else none
        | _ => none
      else if 240 ≤ b ∧ b < 248 then
        match rest with
        | b2 :: b3 :: b4 :: rest4 =>
            if isUtf8Cont b2 && isUtf8Cont b3 && isUtf8Cont b4 then
              let cp := (b - 240) * 262144 + (b2 - 128) * 4096
                + (b3 - 128) * 64 + (b4 - 128)
              if 65536 ≤ cp ∧ cp < 1114112 then
                (utf8Decode rest4).map (fun cs => Char.ofNat cp :: cs)
              else none
            else none
        | _ => none
      else none

/-- Normalization plus decode plus UTF-8 check used on calendar attachment
payloads: URL-safe characters replaced by the standard alphabet, standard
base64 decode, then String::from_utf8. -/
def decodeB64Utf8 (data : String) : Option String :=
  let normalized := data.data.map (fun c =>
    if c = '-' then '+' else if c = '_' then '/' else c)
  (b64DecodeGroups normalized).bind (fun bytes =>
    (utf8Decode bytes).map String.mk)

/-! ## Thread reduction (gmail/mod.rs, thread_detail_to_thread, lines 659-800)

Network fetches of attachment bytes are abstracted as an oracle returning the
base64 payload or an error string, exactly the result type of
GmailClient::get_attachment. -/

/-- Oracle for GmailClient::get_attachment (message id, attachment id). -/
structure GmailOracle where
  getAttachment : String → String → Except String String

/-- Mapping of a panic-modelling function over a list: the whole computation
panics (none) as soon as one element panics, as the Rust iterator would. -/
def mapOrPanic (f : String → Option String) : List String → Option (List String)
  | [] => some []
  | x :: xs =>
      match f x, mapOrPanic f xs with
      | some y, some ys => some (y :: ys)
      | _, _ => none

/-- From-header values collected over the messages of a thread detail, in
message order: for each message, the first header named From (ASCII
case-insensitive), when the payload and header vector exist. -/
def fromHeaderValues (messages : List MessageDetail) : List String :=
  messages.filterMap (fun m =>
    m.payload.bind (fun p =>
      p.headers.bind (fun headers =>
        (headers.find? (fun h => eqIgnoreAsciiCase h.name "From")).map
          (fun h => h.value))))

/-- Attachment list built over all messages of the detail (lines 714-731):
per-message part-tree extraction, tagged with the message id and an empty
inline_data field. -/
def buildAttachments (messages : List MessageDetail) : List Attachment :=
  messages.flatMap (fun msg =>
    match msg.payload with
    | none => []
    | some payload =>
        (extract_attachments_from_parts payload.parts).map (fun info =>
          { message_id := msg.id
            attachment_id := info.attachment_id
            filename := info.filename
            mime_type := info.mime_type
            size := info.size
            inline_data := none
            content_id := info.content_id }))

/-- The image_indices selection (lines 735-741): enumerate, keep attachments
that are images below MAX_INLINE_IMAGE_SIZE, take the first three, and record
index, message id and attachment id. -/
def image_indices (attachments : List Attachment) : List (Nat × String × String) :=
  ((attachments.enum.filter (fun p =>
      strStartsWith p.2.mime_type "image/" && p.2.size < MAX_INLINE_IMAGE_SIZE)).take 3).map
    (fun p => (p.1, p.2.message_id, p.2.attachment_id))

/-- The inline-image fill loop (lines 743-759): fetch every selected
attachment and write the payload into inline_data at the recorded index on
success, leaving the list unchanged on a fetch error. -/
def applyInlineImages (o : GmailOracle) (attachments : List Attachment) :
    List Attachment :=
  let idxs := image_indices attachments
  let results := idxs.map (fun e => o.getAttachment e.2.1 e.2.2)
  (idxs.zip results).foldl (fun acc er =>
    match er.2 with
    | .ok data => acc.modify (fun a => { a with inline_data := some data }) er.1.1
    | .error _ => acc) attachments

/-- The calendar scan (lines 761-783): first attachment classified as
calendar whose fetch, base64 decode, UTF-8 decode and ICS parse all succeed;
every clean failure falls through to the next calendar attachment.  The
outer none models a Rust panic inside parse_ics_content, which aborts the
whole reduction; a fetch error never panics. -/
def findCalendarEvent (o : GmailOracle) (off : Int) :
    List Attachment → Option (Option CalendarEvent)
  | [] => some none
  | a :: rest =>
      if a.is_calendar then
        match o.getAttachment a.message_id a.attachment_id with
        | .ok data =>
            match decodeB64Utf8 data with
            | some ics =>
                match parse_ics_content off ics with
                | none => none
                | some (some event) => some (some event)
                | some none => findCalendarEvent o off rest
            | none => findCalendarEvent o off rest
        | .error _ => findCalendarEvent o off rest
      else findCalendarEvent o off rest

/-- Field computation of thread_detail_to_thread of gmail/mod.rs, given the
already extracted participant addresses and the already scanned calendar
event (both scans can panic and are checked by the caller).  The parameters
are the fetch oracle, the host timezone offset (for ICS local datetimes),
and the value of Utc::now in milliseconds (fallback for a missing or
out-of-range internalDate). -/
def thread_detail_reduced (o : GmailOracle) (_off nowMs : Int)
    (detail : ThreadDetail) (raw_participants : List String)
    (calendar_event : Option CalendarEvent) : Thread :=
  let messages := detail.messages.getD []
  let latest_msg := messages.getLast?
  let subject := ((latest_msg.bind (fun m => m.payload)).bind (fun p =>
    p.headers.bind (fun headers =>
      (headers.find? (fun h => eqIgnoreAsciiCase h.name "Subject")).map
        (fun h => h.value)))).getD "(No Subject)"
  let snippet := (latest_msg.bind (fun m => m.snippet)).getD ""
  let last_date :=
    match (latest_msg.bind (fun m => m.internal_date)).bind rustParseI64 with
    | some ms => (fromTimestampMillis ms).getD nowMs
    | none => nowMs
  let unread_count : Int := (messages.filter (fun m =>
    (m.label_ids.map (fun labels => labels.contains "UNREAD")).getD false)).length
  let participants := dedupAdjacent raw_participants
  let labels := (latest_msg.bind (fun m => m.label_ids)).getD []
  let attachments := applyInlineImages o (buildAttachments messages)
  let has_attachment := !attachments.isEmpty
  {
    gmail_thread_id := detail.id
    account_id := ""
    subject := subject
    snippet := snippet
    last_message_date := last_date
    unread_count := unread_count
    labels := labels
    participants := participants
    has_attachment := has_attachment
    attachments := attachments
    calendar_event := calendar_event
  }

/-- Function thread_detail_to_thread of gmail/mod.rs, split into the two
panic-capable scans (From extraction, then the calendar scan over the
inline-filled attachments, in source order) and the panic-free field
computation above.  The result is none exactly when the Rust original
panics. -/
def thread_detail_to_thread (o : GmailOracle) (off nowMs : Int)
    (detail : ThreadDetail) : Option Thread :=
  match mapOrPanic extract_email_address (fromHeaderValues (detail.messages.getD [])) with
  | none => none
  | some raw_participants =>
      match findCalendarEvent o off
          (applyInlineImages o (buildAttachments (detail.messages.getD []))) with
      | none => none
      | some calendar_event =>
          some (thread_detail_reduced o off nowMs detail raw_participants
            calendar_event)

/-! ## Batch fetch engine (gmail/mod.rs, batch_get_thread_details, lines
527-551)

The two network layers are abstracted as oracles: the outcome of one
multipart batch call for a chunk (execute_batch_thread_fetch) and the outcome
of one single-thread fetch (get_thread_detail).  Both outcomes are already
reduced Thread values, as in the source where each layer feeds
thread_detail_to_thread before returning. -/

/-- Oracles of the batch fetch engine. -/
structure FetchEnv where
  batch : List String → Except String (List Thread)
  single : String → Except String Thread

/-- Sequential per-id fallback of a failed chunk (lines 541-545): fetch each
id alone and silently skip errors. -/
def seqFallback (env : FetchEnv) (chunk : List String) : List Thread :=
  chunk.foldl (fun acc thread_id =>
    match env.single thread_id with
    | .ok t => acc ++ [t]
    | .error _ => acc) []

/-- Contribution of one chunk to the result: the batch outcome when it
succeeds, else the sequential fallback. -/
def chunkFetch (env : FetchEnv) (chunk : List String) : List Thread :=
  match env.batch chunk with
  | .ok threads => threads
  | .error _ => seqFallback env chunk

/-- Function batch_get_thread_details of gmail/mod.rs. -/
def batch_get_thread_details (env : FetchEnv) (thread_ids : List String) :
    Except String (List Thread) :=
  if thread_ids.isEmpty then .ok []
  else .ok ((chunksOf MAX_BATCH_SIZE thread_ids).foldl
    (fun all_threads chunk => all_threads ++ chunkFetch env chunk) [])

/-! ## Date bucketing (gmail/mod.rs, classify_date and group_threads_by_date,
lines 1549-1605)

Local calendar dates are modelled as day numbers from 1970-01-01 obtained by
shifting a UTC millisecond timestamp by a fixed host offset and flooring to
days, which is chrono with_timezone plus date_naive for a fixed-offset host
timezone.  The current instant Local::now() is passed as the UTC millisecond
parameter nowMs. -/

/-- Local calendar date (day number) of a UTC millisecond timestamp. -/
def localDayNumber (off ms : Int) : Int :=
  (ms + off).fdiv 86400000

/-- Weekday::num_days_from_monday of a day number: day 0 (1970-01-01) was a
Thursday, three days after a Monday. -/
def num_days_from_monday (day : Int) : Int :=
  (day + 3) % 7

/-- Function classify_date of gmail/mod.rs. -/
def classify_date (off nowMs : Int) (date : Int) : DateBucket :=
  let today := localDayNumber off nowMs
  let msg_date := localDayNumber off date
  if msg_date = today then .Today
  else
    let yesterday := today - 1
    if msg_date = yesterday then .Yesterday
    else
      let days_since_monday := num_days_from_monday today
      let week_start := today - days_since_monday
      if week_start ≤ msg_date then .ThisWeek
      else
        let thirty_days_ago := today - 30
        if thirty_days_ago ≤ msg_date then .Last30Days
        else .Older

/-- The fixed bucket emission order of group_threads_by_date. -/
def bucketOrder : List String :=
  ["Today", "Yesterday", "This week", "Last 30 days", "Older"]

/-- Threads accumulated under one bucket label by the grouping HashMap: entry
plus push preserves encounter order, so the bucket content is a filter of the
input in input order. -/
def bucketThreads (off nowMs : Int) (threads : List Thread) (label : String) :
    List Thread :=
  threads.filter (fun t =>
    (classify_date off nowMs t.last_message_date).as_str == label)

/-- Function group_threads_by_date of gmail/mod.rs: emit non-empty buckets in
fixed order, each sorted by descending last-message date (Rust sort_by is a
stable merge sort; the comparator reverses the date order). -/
def group_threads_by_date (off nowMs : Int) (threads : List Thread) :
    List ThreadGroup :=
  bucketOrder.filterMap (fun label =>
    let ts := bucketThreads off nowMs threads label
    if ts.isEmpty then none
    else some {
      label := label
      threads := ts.mergeSort (fun a b =>
        decide (b.last_message_date ≤ a.last_message_date)) })

/-! ## History delta query (gmail/mod.rs, get_history_changes, lines
1195-1343)

The server is modelled as the finite list of HTTP responses the pagination
loop consumes in order.  A 404 status is a distinguished response; any other
non-success status carries its status text and body. -/

/-- Struct HistoryMessage of gmail/mod.rs. -/
structure HistoryMessage where
  id : String
  thread_id : Option String

/-- The three event wrapper structs (MessageAddedEvent, MessageDeletedEvent,
LabelEvent) of gmail/mod.rs, each a single message field. -/
structure MessageEvent where
  message : HistoryMessage

/-- Struct HistoryItem of gmail/mod.rs. -/
structure HistoryItem where
  messages_added : Option (List MessageEvent)
  messages_deleted : Option (List MessageEvent)
  labels_added : Option (List MessageEvent)
  labels_removed : Option (List MessageEvent)

/-- Struct HistoryListResponse of gmail/mod.rs (one page of the delta). -/
structure HistoryPage where
  history : Option (List HistoryItem)
  next_page_token : Option String
  history_id : String

/-- One HTTP response of the history endpoint. -/
inductive DeltaHttpResponse where
  | notFound
  | httpError (status body : String)
  | page (p : HistoryPage)

/-- Struct HistoryChanges of gmail/mod.rs. -/
structure HistoryChanges where
  modified_thread_ids : List String
  deleted_message_ids : List String
  new_history_id : String
deriving DecidableEq

/-- Per-item accumulation of get_history_changes (lines 1240-1276): thread
ids of added events, then message ids and thread ids of deleted events, then
thread ids of both label event kinds, all inserted into the two sets. -/
def processHistoryItem (acc : List String × List String) (item : HistoryItem) :
    List String × List String :=
  let acc := (item.messages_added.getD []).foldl (fun a e =>
    match e.message.thread_id with
    | some tid => (insertSet a.1 tid, a.2)
    | none => a) acc
  let acc := (item.messages_deleted.getD []).foldl (fun a e =>
    let a := (a.1, insertSet a.2 e.message.id)
    match e.message.thread_id with
    | some tid => (insertSet a.1 tid, a.2)
    | none => a) acc
  let acc := (item.labels_added.getD []).foldl (fun a e =>
    match e.message.thread_id with
    | some tid => (insertSet a.1 tid, a.2)
    | none => a) acc
  (item.labels_removed.getD []).foldl (fun a e =>
    match e.message.thread_id with
    | some tid => (insertSet a.1 tid, a.2)
    | none => a) acc

/-- Pagination loop of get_history_changes.  Running out of modelled
responses while a next-page token is pending corresponds to a network
failure of the next request. -/
def historyLoop : List DeltaHttpResponse → List String → List String →
    Except String HistoryChanges
  | [], _, _ => .error "Request failed: no response"
  | .notFound :: _, _, _ => .error "History ID expired"
  | .httpError status body :: _, _, _ => .error ("API error " ++ status ++ ": " ++ body)
  | .page p :: rest, modified, deleted =>
      let acc := (p.history.getD []).foldl processHistoryItem (modified, deleted)
      match p.next_page_token with
      | some _ => historyLoop rest acc.1 acc.2
      | none => .ok {
          modified_thread_ids := acc.1
          deleted_message_ids := acc.2
          new_history_id := p.history_id }

/-- Function get_history_changes of gmail/mod.rs.  The start history id only
feeds the request URL, which the response list models. -/
def get_history_changes (_start_history_id : String)
    (responses : List DeltaHttpResponse) : Except String HistoryChanges :=
  historyLoop responses [] []

/-! ## Incremental sync controller (commands.rs, sync_threads_incremental and
perform_full_sync, lines 541-658)

The external world of one sync call is a SyncEnv: the delta responses, the
profile-endpoint outcome (get_current_history_id) and the batch fetch
oracles.  Cursor storage is modelled by returning the list of cursor writes
the call performs (set_history_id writes some, clear_history_id writes none),
in order. -/

/-- Struct IncrementalSyncResult of commands.rs. -/
structure IncrementalSyncResult where
  modified_threads : List Thread
  deleted_thread_ids : List String
  new_history_id : String
  is_full_sync : Bool
deriving DecidableEq

/-- External world of one sync call. -/
structure SyncEnv where
  deltaResponses : List DeltaHttpResponse
  profile : Except String String
  fetch : FetchEnv

/-- Function perform_full_sync of commands.rs: fetch the current cursor from
the profile endpoint, persist it, and return an empty full-sync result. -/
def perform_full_sync (env : SyncEnv) :
    Except String IncrementalSyncResult × List (Option String) :=
  match env.profile with
  | .ok history_id =>
      (.ok {
        modified_threads := []
        deleted_thread_ids := []
        new_history_id := history_id
        is_full_sync := true }, [some history_id])
  | .error e => (.error ("Failed to get history ID: " ++ e), [])

/-- Function sync_threads_incremental of commands.rs (the dispatch on the
stored cursor, lines 569-627).  Database lock and token acquisition are glue
outside the model.  Note line 604 of the source: the returned
deleted_thread_ids field is assigned changes.modified_thread_ids. -/
def sync_threads_incremental (account_id : String) (stored : Option String)
    (env : SyncEnv) :
    Except String IncrementalSyncResult × List (Option String) :=
  match stored with
  | some history_id =>
      match get_history_changes history_id env.deltaResponses with
      | .ok changes =>
          let modified_threads :=
            if changes.modified_thread_ids.isEmpty then []
            else
              ((batch_get_thread_details env.fetch changes.modified_thread_ids).toOption.getD
                []).map (fun t => { t with account_id := account_id })
          (.ok {
            modified_threads := modified_threads
            deleted_thread_ids := changes.modified_thread_ids
            new_history_id := changes.new_history_id
            is_full_sync := false }, [some changes.new_history_id])
      | .error e =>
          if rustContains e "expired" then
            let (r, writes) := perform_full_sync env
            (r, none :: writes)
          else (.error e, [])
  | none => perform_full_sync env

/-! ## Card reconciliation (commands.rs, pull_from_icloud, lines 1091-1191) -/

/-- Struct Account of models.rs (the fields reconciliation reads). -/
structure Account where
  id : String
  email : String
deriving DecidableEq

/-- Struct Card of models.rs. -/
structure Card where
  id : String
  account_id : String
  name : String
  query : String
  position : Int
  collapsed : Bool
  color : Option String
  group_by : String
  card_type : String
deriving DecidableEq

/-- The local_account_by_email HashMap of pull_from_icloud: keyed by the
lowercased email while iterating the account vector, so on a key collision
the account latest in the vector wins; modelled as a reverse search. -/
def lookupAccountByEmail (accounts : List Account) (email : String) :
    Option Account :=
  accounts.reverse.find? (fun a => strToLower a.email == email)

/-- Per-card resolution of pull_from_icloud (lines 1139-1177): keep a card
whose account id is local; else remap through the account-id-to-email mapping
and a case-insensitive local email lookup; else fall back to a unique local
account; else skip.  Rust String::to_lowercase is modelled by the ASCII fold
of String.toLower, which agrees on ASCII email addresses. -/
def resolve_card_account (accounts : List Account)
    (account_mappings : List (String × String)) (card : Card) : Option Card :=
  if (accounts.map (fun a => a.id)).contains card.account_id then some card
  else
    let viaEmail :=
      match account_mappings.lookup card.account_id with
      | some old_email =>
          (lookupAccountByEmail accounts (strToLower old_email)).map
            (fun local_account => { card with account_id := local_account.id })
      | none => none
    match viaEmail with
    | some c => some c
    | none =>
        match accounts with
        | [a] => some { card with account_id := a.id }
        | _ => none

/-- A database write of the merge loop. -/
inductive CardAction where
  | insert (c : Card)
  | update (c : Card)
deriving DecidableEq

/-- Upsert decision of the merge loop (lines 1180-1187): insert when the card
id is not a local card id, else update. -/
def upsertAction (local_card_ids : List String) (c : Card) : CardAction :=
  if local_card_ids.contains c.id then .update c else .insert c

/-- The merge loop of pull_from_icloud over the remote card list: resolved
cards are upserted in order, skipped cards contribute nothing. -/
def pull_merge_cards (accounts : List Account)
    (account_mappings : List (String × String)) (local_card_ids : List String)
    (icloud_cards : List Card) : List CardAction :=
  icloud_cards.foldl (fun acc card =>
    match resolve_card_account accounts account_mappings card with
    | none => acc
    | some c => acc ++ [upsertAction local_card_ids c]) []

/-! ## Concrete inputs used by the witnesses and counterexamples below -/

/-- A reduced thread value carrying only its id, as returned by an abstract
batch fetch. -/
def bareThread (tid : String) : Thread :=
  { gmail_thread_id := tid
    account_id := ""
    subject := "s"
    snippet := ""
    last_message_date := 0
    unread_count := 0
    labels := []
    participants := []
    has_attachment := false
    attachments := []
    calendar_event := none }

/-- An oracle whose every fetch fails. -/
def failingOracle : GmailOracle := ⟨fun _ _ => .error "network"⟩

/-- Sync environment of the delta-sync scenario: one page with two added
messages on thread T1 and one deleted message M9 on thread T2, history id
1050, no next page. -/
def c1_env : SyncEnv :=
  { deltaResponses := [.page {
      history := some [{
        messages_added := some [⟨⟨"A1", some "T1"⟩⟩, ⟨⟨"A2", some "T1"⟩⟩]
        messages_deleted := some [⟨⟨"M9", some "T2"⟩⟩]
        labels_added := none
        labels_removed := none }]
      next_page_token := none
      history_id := "1050" }]
    profile := .error "unused"
    fetch := { batch := fun _ => .ok [bareThread "T1", bareThread "T2"]
               single := fun _ => .error "unused" } }

/-- A message whose only relevant content is a From header. -/
def fromOnlyMessage (i f : String) : MessageDetail :=
  { id := i
    label_ids := none
    snippet := none
    internal_date := none
    payload := some { headers := some [⟨"From", f⟩]
                      body := none
                      parts := none
                      mime_type := none } }

/-- Thread detail of the participant scenario: three messages with From
values a, b, a. -/
def c2_detail : ThreadDetail :=
  { id := "tc2"
    messages := some [fromOnlyMessage "1" "a@x.com", fromOnlyMessage "2" "b@x.com",
                      fromOnlyMessage "3" "a@x.com"] }

/-- Sync environment of the cursor-expiry scenario: the delta query answers
404 and the profile endpoint answers 777. -/
def c3_env : SyncEnv :=
  { deltaResponses := [.notFound]
    profile := .ok "777"
    fetch := { batch := fun _ => .error "unused", single := fun _ => .error "unused" } }

/-- Fetch environment of the batch-fallback scenario: every batch call fails;
the sequential endpoint serves id a and fails on id b. -/
def c4_env : FetchEnv :=
  { batch := fun _ => .error "boom"
    single := fun i => if i == "a" then .ok (bareThread "a") else .error "gone" }

/-- An image part of the given attachment id, 5000 bytes. -/
def smallImagePart (aid : String) : MessagePart :=
  .mk none "image/png" (some (aid ++ ".png")) none
    (some { size := some 5000, data := none, attachment_id := some aid }) none

/-- Thread detail of the inline-image scenario: one message carrying five
small image attachments. -/
def c7_detail : ThreadDetail :=
  { id := "tc7"
    messages := some [{
      id := "m1"
      label_ids := none
      snippet := none
      internal_date := none
      payload := some {
        headers := some [⟨"From", "a@x.com"⟩]
        body := none
        parts := some [smallImagePart "a1", smallImagePart "a2", smallImagePart "a3",
                       smallImagePart "a4", smallImagePart "a5"]
        mime_type := none } }] }

/-- Oracle of the inline-image scenario: the fetch of attachment a2 fails,
every other fetch succeeds. -/
def c7_oracle : GmailOracle :=
  ⟨fun _ aid => if aid == "a2" then .error "boom" else .ok ("data-" ++ aid)⟩

/-- Local accounts of the reconciliation scenario. -/
def c8_accounts : List Account := [⟨"NEW1", "User@X.com"⟩]

/-- Remote account-id-to-email mapping of the reconciliation scenario. -/
def c8_mappings : List (String × String) := [("OLD1", "user@x.com")]

/-- Remote card of the reconciliation scenario, owned by the unknown account
OLD1. -/
def c8_card : Card :=
  { id := "c1"
    account_id := "OLD1"
    name := "Inbox"
    query := "in:inbox"
    position := 0
    collapsed := false
    color := none
    group_by := "date"
    card_type := "email" }

/-! ## Helper lemmas -/

/-- A foldl that appends per-element blocks is a flatMap. -/
theorem foldl_append_eq_flatMap {α β : Type} (g : α → List β) :
    ∀ (l : List α) (acc : List β),
      l.foldl (fun a x => a ++ g x) acc = acc ++ l.flatMap g := by
  intro l
  induction l with
  | nil => intro acc; simp
  | cons x xs ih =>
      intro acc
      simp only [List.foldl_cons, List.flatMap_cons, ih (acc ++ g x), List.append_assoc]

/-- The sequential fallback of a chunk keeps exactly the per-id successes, in
order. -/
theorem seqFallback_eq_filterMap (env : FetchEnv) (chunk : List String) :
    seqFallback env chunk = chunk.filterMap (fun i => (env.single i).toOption) := by
  have key : ∀ (l : List String) (acc : List Thread),
      l.foldl (fun acc thread_id =>
        match env.single thread_id with
        | .ok t => acc ++ [t]
        | .error _ => acc) acc = acc ++ l.filterMap (fun i => (env.single i).toOption) := by
    intro l
    induction l with
    | nil => intro acc; simp
    | cons x xs ih =>
        intro acc
        cases hx : env.single x with
        | ok t =>
            simp only [List.foldl_cons, hx, List.filterMap_cons, Except.toOption,
              ih (acc ++ [t]), List.append_assoc, List.singleton_append]
        | error e =>
            simp only [List.foldl_cons, hx, List.filterMap_cons, Except.toOption, ih acc]
  simpa [seqFallback] using key chunk []

/-- Fuel-indexed form of the chunk length bound. -/
theorem chunksOfAux_length_le (n : Nat) :
    ∀ (fuel : Nat) (l : List String), ∀ c ∈ chunksOfAux fuel n l, c.length ≤ n := by
  intro fuel
  induction fuel with
  | zero =>
      intro l c hc
      cases l with
      | nil => simp [chunksOfAux] at hc
      | cons x xs =>
          cases n with
          | zero => simp [chunksOfAux] at hc
          | succ m => simp [chunksOfAux] at hc
  | succ fuel ih =>
      intro l c hc
      cases l with
      | nil => simp [chunksOfAux] at hc
      | cons x xs =>
          cases n with
          | zero => simp [chunksOfAux] at hc
          | succ m =>
              rw [chunksOfAux] at hc
              rcases List.mem_cons.mp hc with h | h
              · subst h
                simp
              · exact ih ((x :: xs).drop (m + 1)) c h

/-- Every chunk produced by chunksOf n has length at most n. -/
theorem chunksOf_length_le (n : Nat) (l : List String) :
    ∀ c ∈ chunksOf n l, c.length ≤ n :=
  chunksOfAux_length_le n l.length l

/-- The panic-modelling map succeeds when no element panics. -/
theorem mapOrPanic_isSome (f : String → Option String) :
    ∀ (l : List String), (∀ x ∈ l, (f x).isSome) → ∃ ys, mapOrPanic f l = some ys := by
  intro l
  induction l with
  | nil => intro _; exact ⟨[], rfl⟩
  | cons x xs ih =>
      intro h
      obtain ⟨y, hy⟩ := Option.isSome_iff_exists.mp (h x (List.mem_cons_self x xs))
      obtain ⟨ys, hys⟩ := ih (fun z hz => h z (List.mem_cons_of_mem x hz))
      exact ⟨y :: ys, by simp [mapOrPanic, hy, hys]⟩

/-- Count inside a filter: the full count when the element satisfies the
predicate, zero otherwise. -/
theorem count_filter_eq {α : Type} [DecidableEq α] (a : α) (p : α → Bool)
    (l : List α) :
    List.count a (l.filter p) = if p a then List.count a l else 0 := by
  by_cases h : p a = true
  · rw [if_pos h, List.count_filter h]
  · rw [if_neg h, List.count_eq_zero]
    intro hmem
    exact h (List.mem_filter.mp hmem).2

/-- Counting a thread across the emitted groups of any label list: one count
per label bucket (empty buckets are omitted but contribute zero anyway, and
sorting a bucket preserves counts). -/
theorem count_flat_groups (off nowMs : Int) (threads : List Thread) (a : Thread) :
    ∀ (labels : List String),
      List.count a ((labels.filterMap (fun label =>
        let ts := bucketThreads off nowMs threads label
        if ts.isEmpty then none
        else some ({
          label := label
          threads := ts.mergeSort (fun x y =>
            decide (y.last_message_date ≤ x.last_message_date)) } : ThreadGroup))).flatMap
        (fun g => g.threads))
      = (labels.map (fun label =>
          List.count a (bucketThreads off nowMs threads label))).sum := by
  intro labels
  induction labels with
  | nil => simp
  | cons l rest ih =>
      by_cases h : (bucketThreads off nowMs threads l).isEmpty
      · have hnil : bucketThreads off nowMs threads l = [] := List.isEmpty_iff.mp h
        simp [hnil]
        simpa using ih
      · have hne : bucketThreads off nowMs threads l ≠ [] := fun e => h (by simp [e])
        have hperm := List.mergeSort_perm (bucketThreads off nowMs threads l)
          (fun x y => decide (y.last_message_date ≤ x.last_message_date))
        simp [hne, hperm.count_eq a]
        simpa using ih

/-- The five bucket counts of one thread sum to its count in the input:
classification assigns exactly one bucket label. -/
theorem sum_bucket_counts (off nowMs : Int) (threads : List Thread) (a : Thread) :
    (bucketOrder.map (fun label =>
      List.count a (bucketThreads off nowMs threads label))).sum
    = List.count a threads := by
  simp only [bucketOrder, List.map_cons, List.map_nil, List.sum_cons, List.sum_nil,
    bucketThreads, count_filter_eq]
  cases hcl : classify_date off nowMs a.last_message_date <;>
    simp [hcl, DateBucket.as_str]

/-- Indices in an enumeration from n are strictly increasing. -/
theorem pairwise_fst_lt_enumFrom {α : Type} :
    ∀ (n : Nat) (l : List α),
      List.Pairwise (fun a b => a.1 < b.1) (List.enumFrom n l) := by
  intro n l
  induction l generalizing n with
  | nil => simp
  | cons x xs ih =>
      rw [List.enumFrom_cons]
      exact List.Pairwise.cons
        (fun b hb => Nat.lt_of_lt_of_le (Nat.lt_succ_self n)
          (List.le_fst_of_mem_enumFrom hb)) (ih (n + 1))

/-- The selected inline-image entries carry pairwise distinct indices. -/
theorem image_indices_pairwise_ne (atts : List Attachment) :
    List.Pairwise (fun a b => a.1 ≠ b.1) (image_indices atts) := by
  have h1 : List.Pairwise (fun a b => a.1 < b.1) atts.enum :=
    pairwise_fst_lt_enumFrom 0 atts
  have h2 := h1.filter (fun p =>
    strStartsWith p.2.mime_type "image/" && p.2.size < MAX_INLINE_IMAGE_SIZE)
  have h3 := List.Pairwise.sublist (List.take_sublist 3 _) h2
  rw [image_indices, List.pairwise_map]
  exact h3.imp (fun h => Nat.ne_of_lt h)

/-- Every selected inline-image entry records the index, message id and
attachment id of a qualifying attachment of the input list. -/
theorem image_indices_spec (atts : List Attachment) :
    ∀ e ∈ image_indices atts, ∃ orig,
      atts[e.1]? = some orig ∧ e.2.1 = orig.message_id ∧ e.2.2 = orig.attachment_id ∧
      strStartsWith orig.mime_type "image/" = true ∧ orig.size < MAX_INLINE_IMAGE_SIZE := by
  intro e he
  rw [image_indices, List.mem_map] at he
  obtain ⟨p, hp, rfl⟩ := he
  have hpf := List.mem_of_mem_take hp
  have hmem := List.mem_filter.mp hpf
  have hq := hmem.2
  have hi : atts[p.1]? = some p.2 := List.mem_enum_iff_getElem?.mp hmem.1
  rw [Bool.and_eq_true, decide_eq_true_eq] at hq
  exact ⟨p.2, hi, rfl, rfl, hq.1, hq.2⟩

/-- The inline fold leaves untouched every position no selected entry names:
step case of the distinct-index update argument. -/
theorem foldl_inline_getElem_notmem
    (f : (Nat × String × String) → Except String String) :
    ∀ (ups : List (Nat × String × String)) (acc : List Attachment) (j : Nat),
      (∀ v ∈ ups, v.1 ≠ j) →
      (ups.foldl (fun acc v =>
        match f v with
        | .ok data => acc.modify (fun a => { a with inline_data := some data }) v.1
        | .error _ => acc) acc)[j]? = acc[j]? := by
  intro ups
  induction ups with
  | nil => intro acc j _; rfl
  | cons u rest ih =>
      intro acc j h
      have hne : u.1 ≠ j := h u (List.mem_cons_self u rest)
      have hrest : ∀ v ∈ rest, v.1 ≠ j := fun v hv => h v (List.mem_cons_of_mem u hv)
      rw [List.foldl_cons]
      cases hf : f u with
      | ok data =>
          rw [ih _ j hrest, List.getElem?_modify]
          rcases hj : acc[j]? with _ | a
          · rfl
          · simp [hne]
      | error e => exact ih _ j hrest

/-- The inline fold writes each selected position once: the fetched payload
on success, the untouched attachment on a fetch error. -/
theorem foldl_inline_getElem_mem
    (f : (Nat × String × String) → Except String String) :
    ∀ (ups : List (Nat × String × String)) (acc : List Attachment) (u : Nat × String × String),
      u ∈ ups → List.Pairwise (fun a b => a.1 ≠ b.1) ups →
      (ups.foldl (fun acc v =>
        match f v with
        | .ok data => acc.modify (fun a => { a with inline_data := some data }) v.1
        | .error _ => acc) acc)[u.1]?
      = (acc[u.1]?).map (fun orig =>
          match f u with
          | .ok data => { orig with inline_data := some data }
          | .error _ => orig) := by
  intro ups
  induction ups with
  | nil => intro acc u hu; exact absurd hu (List.not_mem_nil u)
  | cons v rest ih =>
      intro acc u hu hpw
      have hpw' := List.pairwise_cons.mp hpw
      rw [List.foldl_cons]
      rcases List.mem_cons.mp hu with rfl | hu'
      · have hrest : ∀ w ∈ rest, w.1 ≠ u.1 := fun w hw => (hpw'.1 w hw).symm
        rw [foldl_inline_getElem_notmem f rest _ u.1 hrest]
        cases hf : f u with
        | ok data =>
            rw [List.getElem?_modify]
            rcases hj : acc[u.1]? with _ | a
            · rfl
            · simp
        | error e =>
            rcases hj : acc[u.1]? with _ | a <;> simp
      · have hv : v.1 ≠ u.1 := hpw'.1 u hu'
        cases hf : f v with
        | ok data =>
            rw [ih _ u hu' hpw'.2, List.getElem?_modify]
            rcases hj : acc[u.1]? with _ | a
            · rfl
            · simp [hv]
        | error e => exact ih _ u hu' hpw'.2

/-- Zip of the selected entries with their fetch results, rewritten as a map. -/
theorem inline_zip_eq_map (o : GmailOracle) (idxs : List (Nat × String × String)) :
    idxs.zip (idxs.map (fun e => o.getAttachment e.2.1 e.2.2))
      = idxs.map (fun u => (u, o.getAttachment u.2.1 u.2.2)) := by
  have h := List.zip_map' id (fun e => o.getAttachment e.2.1 e.2.2) idxs
  simpa using h

/-- The inline-image pass at a selected index: the original attachment with
inline_data filled on fetch success, the original attachment on fetch error. -/
theorem applyInline_getElem_sel (o : GmailOracle) (atts : List Attachment) :
    ∀ e ∈ image_indices atts,
      (applyInlineImages o atts)[e.1]? = (atts[e.1]?).map (fun orig =>
        match o.getAttachment e.2.1 e.2.2 with
        | .ok data => { orig with inline_data := some data }
        | .error _ => orig) := by
  intro e he
  rw [applyInlineImages]
  simp only [inline_zip_eq_map, List.foldl_map]
  exact foldl_inline_getElem_mem (fun u => o.getAttachment u.2.1 u.2.2)
    (image_indices atts) atts e he (image_indices_pairwise_ne atts)

/-- The inline-image pass leaves every non-selected index untouched. -/
theorem applyInline_getElem_unsel (o : GmailOracle) (atts : List Attachment)
    (j : Nat) (h : ∀ e ∈ image_indices atts, e.1 ≠ j) :
    (applyInlineImages o atts)[j]? = atts[j]? := by
  rw [applyInlineImages]
  simp only [inline_zip_eq_map, List.foldl_map]
  exact foldl_inline_getElem_notmem (fun u => o.getAttachment u.2.1 u.2.2)
    (image_indices atts) atts j h

/-- The calendar scan never panics because of fetch failures alone: when the
fetch of every calendar-classified attachment errors, the scan cleanly
returns no event. -/
theorem findCalendarEvent_fetch_errors (o : GmailOracle) (off : Int) :
    ∀ (atts : List Attachment),
      (∀ a ∈ atts, a.is_calendar = true →
        ∃ e, o.getAttachment a.message_id a.attachment_id = Except.error e) →
      findCalendarEvent o off atts = some none := by
  intro atts
  induction atts with
  | nil => intro _; rfl
  | cons a rest ih =>
      intro h
      have hrest := ih (fun b hb hcal => h b (List.mem_cons_of_mem a hb) hcal)
      by_cases hcal : a.is_calendar = true
      · obtain ⟨e, he⟩ := h a (List.mem_cons_self a rest) hcal
        simp only [findCalendarEvent, hcal, if_true, he, hrest]
      · simp [findCalendarEvent, hcal, hrest]

/-- Every attachment built by the extraction pass has an empty inline_data
field. -/
theorem buildAttachments_inline_none (messages : List MessageDetail) :
    ∀ a ∈ buildAttachments messages, a.inline_data = none := by
  intro a ha
  rw [buildAttachments, List.mem_flatMap] at ha
  obtain ⟨msg, _, hmem⟩ := ha
  cases hp : msg.payload with
  | none => rw [hp] at hmem; exact absurd hmem (List.not_mem_nil a)
  | some payload =>
      rw [hp] at hmem
      obtain ⟨info, _, rfl⟩ := List.mem_map.mp hmem
      rfl

/-! ## Claim theorems -/

/-- C1: evaluating the delta-sync scenario (stored cursor 1000; two
messageAdded events on thread T1; one messageDeleted event for message M9 of
thread T2; history id 1050; no next page).  The controller batch-fetches the
touched threads, stamps the account id, persists cursor 1050 and reports
is_full_sync false — but the returned deleted_thread_ids field is the whole
modified set [T1, T2] (line 604 of commands.rs assigns
changes.modified_thread_ids against its own comment), not the set [T2] of
threads with deleted messages that the claim demands. -/
theorem spec_c1_deleted_ids_code_bug :
    sync_threads_incremental "acct" (some "1000") c1_env =
      (.ok { modified_threads := [{ bareThread "T1" with account_id := "acct" },
                                  { bareThread "T2" with account_id := "acct" }]
             deleted_thread_ids := ["T1", "T2"]
             new_history_id := "1050"
             is_full_sync := false }, [some "1050"])
    ∧ (["T1", "T2"] : List String) ≠ ["T2"] :=
  ⟨rfl, by decide⟩

/-- C2: the thread reducer deduplicates participants only adjacently
(Vec::dedup): reducing messages with From values a, b, a yields participants
[a, b, a], not the fully deduplicated [a, b] the claim demands. -/
theorem spec_c2_participants_code_bug :
    (thread_detail_to_thread failingOracle 0 0 c2_detail).map Thread.participants
      = some ["a@x.com", "b@x.com", "a@x.com"]
    ∧ (["a@x.com", "b@x.com", "a@x.com"] : List String) ≠ ["a@x.com", "b@x.com"] :=
  ⟨rfl, by decide⟩

/-- C3: when the delta query answers 404 and the profile fetch succeeds, the
sync surfaces no error: it clears the stored cursor, runs the full-sync path,
persists the fresh cursor and returns an empty result flagged is_full_sync,
for every account, stored cursor and remaining response tail. -/
theorem spec_c3_cursor_expiry (account_id cursor h : String)
    (rest : List DeltaHttpResponse) (env : SyncEnv)
    (hd : env.deltaResponses = .notFound :: rest) (hp : env.profile = .ok h) :
    sync_threads_incremental account_id (some cursor) env =
      (.ok { modified_threads := [], deleted_thread_ids := [],
             new_history_id := h, is_full_sync := true }, [none, some h]) := by
  cases env with
  | mk d p f =>
      simp only at hd hp
      subst hd
      subst hp
      rfl

/-- C3 witness: the concrete 404 environment with profile cursor 777. -/
theorem spec_c3_cursor_expiry_witness :
    c3_env.deltaResponses = .notFound :: [] ∧ c3_env.profile = .ok "777" ∧
    sync_threads_incremental "acct" (some "500") c3_env =
      (.ok { modified_threads := [], deleted_thread_ids := [],
             new_history_id := "777", is_full_sync := true }, [none, some "777"]) :=
  ⟨rfl, rfl, spec_c3_cursor_expiry "acct" "500" "777" [] c3_env rfl rfl⟩

/-- C9: the From-header extraction is not total: on the input where the first
greater-than sign precedes the first less-than sign, the Rust slice bounds
are reversed (from[4..1]) and the function panics, modelled as none. -/
theorem spec_c9_panic : extract_email_address "a> <b" = none := rfl

/-- C10: every thread whose local calendar date lies strictly after today's
local date is classified ThisWeek: it fails the Today and Yesterday equality
tests and passes the week-start comparison, because the week start never
exceeds today. -/
theorem spec_c10_future_this_week (off nowMs date : Int)
    (h : localDayNumber off nowMs < localDayNumber off date) :
    classify_date off nowMs date = .ThisWeek := by
  have h0 : 0 ≤ (localDayNumber off nowMs + 3) % 7 :=
    Int.emod_nonneg _ (by norm_num)
  have h1 : (localDayNumber off nowMs + 3) % 7 < 7 :=
    Int.emod_lt_of_pos _ (by norm_num)
  simp only [classify_date, num_days_from_monday]
  rw [if_neg (by omega), if_neg (by omega), if_pos (by omega)]

/-- C10 witness: a thread two days in the future of epoch midnight. -/
theorem spec_c10_future_this_week_witness :
    localDayNumber 0 0 < localDayNumber 0 172800000 ∧
    classify_date 0 0 172800000 = .ThisWeek :=
  ⟨by decide, spec_c10_future_this_week 0 0 172800000 (by decide)⟩

/-- C4: the batch engine splits the ids into chunks of at most
MAX_BATCH_SIZE; the result is the error-free concatenation of independent
per-chunk contributions; a chunk whose batch call fails contributes exactly
the sequential per-id successes of that chunk, every id failing both paths
being silently dropped, so a failed chunk contributes at most its own length. -/
theorem spec_c4_batch_fallback (env : FetchEnv) (ids chunk : List String)
    (e : String) (hchunk : chunk ∈ chunksOf MAX_BATCH_SIZE ids)
    (herr : env.batch chunk = .error e) :
    chunk.length ≤ MAX_BATCH_SIZE ∧
    batch_get_thread_details env ids =
      .ok ((chunksOf MAX_BATCH_SIZE ids).flatMap (chunkFetch env)) ∧
    chunkFetch env chunk = chunk.filterMap (fun i => (env.single i).toOption) ∧
    (chunkFetch env chunk).length ≤ chunk.length := by
  refine ⟨chunksOf_length_le _ _ chunk hchunk, ?_, ?_, ?_⟩
  · rw [batch_get_thread_details]
    by_cases hids : ids.isEmpty
    · have hnil : ids = [] := List.isEmpty_iff.mp hids
      subst hnil
      rfl
    · rw [if_neg (by simp [hids]), foldl_append_eq_flatMap]
      simp
  · rw [chunkFetch, herr, seqFallback_eq_filterMap]
  · rw [chunkFetch, herr, seqFallback_eq_filterMap]
    exact List.length_filterMap_le _ _

/-- C4 witness: ids a and b in one chunk whose batch call fails; the
sequential fallback serves a and drops b. -/
theorem spec_c4_batch_fallback_witness :
    (["a", "b"] ∈ chunksOf MAX_BATCH_SIZE ["a", "b"]) ∧
    c4_env.batch ["a", "b"] = .error "boom" ∧
    (["a", "b"].length ≤ MAX_BATCH_SIZE ∧
     batch_get_thread_details c4_env ["a", "b"] =
       .ok ((chunksOf MAX_BATCH_SIZE ["a", "b"]).flatMap (chunkFetch c4_env)) ∧
     chunkFetch c4_env ["a", "b"] =
       ["a", "b"].filterMap (fun i => (c4_env.single i).toOption) ∧
     (chunkFetch c4_env ["a", "b"]).length ≤ ["a", "b"].length) :=
  ⟨by decide, rfl,
    spec_c4_batch_fallback c4_env ["a", "b"] ["a", "b"] "boom" (by decide) rfl⟩

/-- C6: flattening the emitted date groups is a permutation of the input
thread list (no thread lost, none duplicated: each thread lands in exactly
one bucket, buckets are emitted at most once, sorting permutes), under the
claim's hypotheses of pairwise distinct last-message dates spanning more than
thirty days. -/
theorem spec_c6_group_roundtrip (off nowMs : Int) (threads : List Thread)
    (hdistinct : threads.Pairwise
      (fun a b => a.last_message_date ≠ b.last_message_date))
    (hspan : ∃ a ∈ threads, ∃ b ∈ threads,
      30 * 86400000 < b.last_message_date - a.last_message_date) :
    ((group_threads_by_date off nowMs threads).flatMap
      (fun g => g.threads)).Perm threads := by
  rw [List.perm_iff_count]
  intro a
  exact (count_flat_groups off nowMs threads a bucketOrder).trans
    (sum_bucket_counts off nowMs threads a)

/-- Threads of the round-trip witness: forty days apart. -/
def c6_threads : List Thread :=
  [{ bareThread "A" with last_message_date := 40 * 86400000 }, bareThread "B"]

/-- C6 witness: the round trip on two threads forty days apart. -/
theorem spec_c6_group_roundtrip_witness :
    c6_threads.Pairwise (fun a b => a.last_message_date ≠ b.last_message_date) ∧
    (∃ a ∈ c6_threads, ∃ b ∈ c6_threads,
      30 * 86400000 < b.last_message_date - a.last_message_date) ∧
    ((group_threads_by_date 0 0 c6_threads).flatMap
      (fun g => g.threads)).Perm c6_threads :=
  ⟨by decide, by decide,
    spec_c6_group_roundtrip 0 0 c6_threads (by decide) (by decide)⟩

/-- C7: for every thread detail and fetch oracle whose From extraction and
calendar scan do not panic, the reduction succeeds and its attachment list
is the inline pass over the built attachments; the selection is exactly the
first three qualifying images in discovery order; each selected index holds
the fetch result (payload on success, untouched on failure); every other
index is untouched and therefore keeps the empty inline_data the extraction
built.  Per-attachment fetch failures never panic: an image fetch error
leaves the slot untouched, and when every calendar fetch errors the calendar
scan cleanly reports no event, so fetch failures alone never fail the
reduction. -/
theorem spec_c7_inline_images (o : GmailOracle) (off nowMs : Int)
    (detail : ThreadDetail) (cev : Option CalendarEvent)
    (hfrom : ∀ v ∈ fromHeaderValues (detail.messages.getD []),
      (extract_email_address v).isSome)
    (hcal : findCalendarEvent o off
      (applyInlineImages o (buildAttachments (detail.messages.getD []))) = some cev) :
    ∃ t, thread_detail_to_thread o off nowMs detail = some t ∧
      t.attachments = applyInlineImages o (buildAttachments (detail.messages.getD [])) ∧
      image_indices (buildAttachments (detail.messages.getD [])) =
        ((((buildAttachments (detail.messages.getD [])).enum.filter (fun p =>
            strStartsWith p.2.mime_type "image/"
              && p.2.size < MAX_INLINE_IMAGE_SIZE)).take 3).map
          (fun p => (p.1, p.2.message_id, p.2.attachment_id))) ∧
      (∀ e ∈ image_indices (buildAttachments (detail.messages.getD [])),
        (applyInlineImages o (buildAttachments (detail.messages.getD [])))[e.1]? =
          ((buildAttachments (detail.messages.getD []))[e.1]?).map (fun orig =>
            match o.getAttachment e.2.1 e.2.2 with
            | .ok data => { orig with inline_data := some data }
            | .error _ => orig)) ∧
      (∀ j, (∀ e ∈ image_indices (buildAttachments (detail.messages.getD [])),
          e.1 ≠ j) →
        (applyInlineImages o (buildAttachments (detail.messages.getD [])))[j]? =
          (buildAttachments (detail.messages.getD []))[j]?) ∧
      (∀ a ∈ buildAttachments (detail.messages.getD []), a.inline_data = none) ∧
      (∀ atts : List Attachment, (∀ a ∈ atts, a.is_calendar = true →
          ∃ e, o.getAttachment a.message_id a.attachment_id = Except.error e) →
        findCalendarEvent o off atts = some none) := by
  obtain ⟨ys, hys⟩ := mapOrPanic_isSome extract_email_address _ hfrom
  refine ⟨thread_detail_reduced o off nowMs detail ys cev, ?_, rfl, rfl,
    applyInline_getElem_sel o _,
    (fun j hj => applyInline_getElem_unsel o _ j hj),
    buildAttachments_inline_none _,
    findCalendarEvent_fetch_errors o off⟩
  simp only [thread_detail_to_thread, hys, hcal]

/-- C7 witness: five small images in one message; the second fetch fails;
there is no calendar attachment, so the calendar scan cleanly finds none. -/
theorem spec_c7_inline_images_witness :
    (∀ v ∈ fromHeaderValues (c7_detail.messages.getD []),
      (extract_email_address v).isSome) ∧
    findCalendarEvent c7_oracle 0
      (applyInlineImages c7_oracle (buildAttachments (c7_detail.messages.getD [])))
      = some none ∧
    (∃ t, thread_detail_to_thread c7_oracle 0 0 c7_detail = some t ∧
      t.attachments =
        applyInlineImages c7_oracle (buildAttachments (c7_detail.messages.getD [])) ∧
      image_indices (buildAttachments (c7_detail.messages.getD [])) =
        ((((buildAttachments (c7_detail.messages.getD [])).enum.filter (fun p =>
            strStartsWith p.2.mime_type "image/"
              && p.2.size < MAX_INLINE_IMAGE_SIZE)).take 3).map
          (fun p => (p.1, p.2.message_id, p.2.attachment_id))) ∧
      (∀ e ∈ image_indices (buildAttachments (c7_detail.messages.getD [])),
        (applyInlineImages c7_oracle
            (buildAttachments (c7_detail.messages.getD [])))[e.1]? =
          ((buildAttachments (c7_detail.messages.getD []))[e.1]?).map (fun orig =>
            match c7_oracle.getAttachment e.2.1 e.2.2 with
            | .ok data => { orig with inline_data := some data }
            | .error _ => orig)) ∧
      (∀ j, (∀ e ∈ image_indices (buildAttachments (c7_detail.messages.getD [])),
          e.1 ≠ j) →
        (applyInlineImages c7_oracle
            (buildAttachments (c7_detail.messages.getD [])))[j]? =
          (buildAttachments (c7_detail.messages.getD []))[j]?) ∧
      (∀ a ∈ buildAttachments (c7_detail.messages.getD []), a.inline_data = none) ∧
      (∀ atts : List Attachment, (∀ a ∈ atts, a.is_calendar = true →
          ∃ e, c7_oracle.getAttachment a.message_id a.attachment_id = Except.error e) →
        findCalendarEvent c7_oracle 0 atts = some none)) :=
  ⟨by decide, rfl, spec_c7_inline_images c7_oracle 0 0 c7_detail none (by decide) rfl⟩

/-- C8: per-card resolution of an orphaned remote card tries, in order, the
email remapping (case-insensitive), the unique-local-account fallback, and
otherwise skips the card; resolved cards are upserted exactly once at their
position of the merge loop and skipped cards contribute no database write. -/
theorem spec_c8_card_remap (accounts : List Account)
    (mappings : List (String × String)) (card : Card)
    (horphan : (accounts.map (fun a => a.id)).contains card.account_id = false) :
    (∀ old_email la, mappings.lookup card.account_id = some old_email →
      lookupAccountByEmail accounts (strToLower old_email) = some la →
      resolve_card_account accounts mappings card =
        some { card with account_id := la.id }) ∧
    (∀ a, (∀ e, mappings.lookup card.account_id = some e →
        lookupAccountByEmail accounts (strToLower e) = none) → accounts = [a] →
      resolve_card_account accounts mappings card =
        some { card with account_id := a.id }) ∧
    ((∀ e, mappings.lookup card.account_id = some e →
        lookupAccountByEmail accounts (strToLower e) = none) →
      accounts.length ≠ 1 →
      resolve_card_account accounts mappings card = none) ∧
    (∀ c local_card_ids pre post,
      resolve_card_account accounts mappings card = some c →
      pull_merge_cards accounts mappings local_card_ids (pre ++ card :: post) =
        pull_merge_cards accounts mappings local_card_ids pre
          ++ upsertAction local_card_ids c
            :: pull_merge_cards accounts mappings local_card_ids post) ∧
    (resolve_card_account accounts mappings card = none →
      ∀ local_card_ids pre post,
        pull_merge_cards accounts mappings local_card_ids (pre ++ card :: post) =
          pull_merge_cards accounts mappings local_card_ids pre
            ++ pull_merge_cards accounts mappings local_card_ids post) := by
  have hmerge : ∀ local_card_ids (cards : List Card),
      pull_merge_cards accounts mappings local_card_ids cards =
        cards.flatMap (fun cd =>
          match resolve_card_account accounts mappings cd with
          | none => []
          | some c => [upsertAction local_card_ids c]) := by
    intro lids cards
    have key : ∀ (cs : List Card) (acc : List CardAction),
        cs.foldl (fun acc cd =>
          match resolve_card_account accounts mappings cd with
          | none => acc
          | some c => acc ++ [upsertAction lids c]) acc =
          acc ++ cs.flatMap (fun cd =>
            match resolve_card_account accounts mappings cd with
            | none => []
            | some c => [upsertAction lids c]) := by
      intro cs
      induction cs with
      | nil => intro acc; simp
      | cons cd rest ih =>
          intro acc
          cases hr : resolve_card_account accounts mappings cd with
          | none => simp [hr, ih acc]
          | some c => simp [hr, ih (acc ++ [upsertAction lids c])]
    simpa [pull_merge_cards] using key cards []
  refine ⟨?_, ?_, ?_, ?_, ?_⟩
  · intro old_email la h1 h2
    unfold resolve_card_account
    rw [horphan]
    simp only [Bool.false_eq_true, if_false, h1, h2, Option.map_some']
  · intro a hfail hacc
    subst hacc
    unfold resolve_card_account
    rw [horphan]
    cases h1 : mappings.lookup card.account_id with
    | none => simp only [Bool.false_eq_true, if_false, h1]
    | some e =>
        simp only [Bool.false_eq_true, if_false, h1, hfail e h1, Option.map_none']
  · intro hfail hlen
    unfold resolve_card_account
    rw [horphan]
    cases h1 : mappings.lookup card.account_id with
    | none =>
        match accounts, hlen with
        | [], _ => simp only [Bool.false_eq_true, if_false, h1]
        | a :: b :: rest, _ => simp only [Bool.false_eq_true, if_false, h1]
        | [a], hlen => exact absurd rfl hlen
    | some e =>
        have h2 := hfail e h1
        match accounts, h2, hlen with
        | [], h2, _ =>
            simp only [Bool.false_eq_true, if_false, h1, h2, Option.map_none']
        | a :: b :: rest, h2, _ =>
            simp only [Bool.false_eq_true, if_false, h1, h2, Option.map_none']
        | [a], _, hlen => exact absurd rfl hlen
  · intro c lids pre post hres
    simp [hmerge, hres]
  · intro hres lids pre post
    simp [hmerge, hres]

/-- C8 witness: the scenario card owned by OLD1 with the mapping to
user@x.com and the local account NEW1 under a different email case is
remapped to NEW1 and inserted by the merge loop. -/
theorem spec_c8_card_remap_witness :
    ((c8_accounts.map (fun a => a.id)).contains c8_card.account_id = false) ∧
    c8_mappings.lookup c8_card.account_id = some "user@x.com" ∧
    lookupAccountByEmail c8_accounts (strToLower "user@x.com") =
      some ⟨"NEW1", "User@X.com"⟩ ∧
    resolve_card_account c8_accounts c8_mappings c8_card =
      some { c8_card with account_id := "NEW1" } ∧
    pull_merge_cards c8_accounts c8_mappings [] [c8_card] =
      [.insert { c8_card with account_id := "NEW1" }] :=
  ⟨rfl, rfl, rfl,
    (spec_c8_card_remap c8_accounts c8_mappings c8_card rfl).1
      "user@x.com" ⟨"NEW1", "User@X.com"⟩ rfl rfl,
    rfl⟩

end Posta
